import Mathlib

/-!
Shallow embedding of the Go playground compile/download pipeline
(`buildWASM`, `checkImports`, `permittedPackages`, `readArchive`,
`handleRun`, `handleDownload`) and proofs of the specification claims.

External collaborators (the Go standard library and `golang.org/x/tools/txtar`)
are embedded from their documented behaviour where the handlers depend on it:
`path.Ext`, `fs.ValidPath`, `txtar.FS` validation, `base64.StdEncoding`,
`strconv.Atoi`, `url.Values.Get`.  Genuinely external effects (the filesystem,
the compiler subprocess, `go/parser`, `url.Parse`, template execution) are
oracles the handler functions are parameterised over, so every exit path of
the source is represented.
-/

namespace Playground

/-- A `txtar.File`: a named blob.  Contents are modelled as `String`
(the Go code moves between `[]byte` and `string` freely). -/
structure TxtarFile where
  name : String
  data : String
  deriving Repr, DecidableEq

/-- A `txtar.Archive` as used by the handlers (the comment field is unused). -/
structure Archive where
  files : List TxtarFile
  deriving Repr, DecidableEq

/-- `url.Values`: a finite map from field name to the list of submitted values,
modelled as an association list with lookup on the first matching key. -/
def FormValues : Type := List (String × List String)

/-- `form[key]` in Go: the full value list for a key, `[]` when absent. -/
def formIndex (form : FormValues) (key : String) : List String :=
  match form.find? (fun kv => kv.1 == key) with
  | some kv => kv.2
  | none => []

/-- `url.Values.Get`: the first value for the key, `""` when absent or empty. -/
def formGet (form : FormValues) (key : String) : String :=
  match formIndex form key with
  | [] => ""
  | v :: _ => v

/-- The archive `readArchive` assembles from a form: one `txtar.File` per
element of the `filename` field's value list, in order, with content
`form.Get(filename)`. -/
def archiveOfForm (form : FormValues) : Archive :=
  { files := (formIndex form "filename").map
      (fun filename => { name := filename, data := formGet form filename }) }

/-- `readArchive` (source lines 220-230): assemble the archive; it always
returns a nil error. -/
def readArchive (form : FormValues) : Except String Archive :=
  .ok (archiveOfForm form)

/-- Split a character list on a separator character; Go `strings.Split` with
a one-character separator, on the string's characters. -/
def splitOnChar (sep : Char) : List Char → List (List Char)
  | [] => [[]]
  | c :: rest =>
    match splitOnChar sep rest with
    | [] => [[]]
    | group :: groups =>
      if c == sep then [] :: group :: groups
      else (c :: group) :: groups

/-- Go `path.Ext`: the suffix starting at the final dot in the final
slash-separated element of the path, empty when there is no dot. -/
def pathExt (s : String) : String :=
  let base := (splitOnChar '/' s.data).getLastD []
  match splitOnChar '.' base with
  | [] => ""
  | [_] => ""
  | parts => "." ++ ⟨parts.getLastD []⟩

/-- Go `fs.ValidPath`: "." or nonempty slash-separated components,
none empty, none "." or "..". -/
def validPath (s : String) : Bool :=
  s == "." ||
    (!s.data.isEmpty &&
      (splitOnChar '/' s.data).all
        (fun c => !c.isEmpty && c != ['.'] && c != ['.', '.']))

/-- Two file paths collide in a file tree when they are equal or one is a
directory prefix of the other (a node cannot be both file and directory). -/
def pathConflict (a b : String) : Bool :=
  a == b || (a ++ "/").data.isPrefixOf b.data || (b ++ "/").data.isPrefixOf a.data

/-- No pairwise conflicts among a list of file names. -/
def noConflicts : List String → Bool
  | [] => true
  | n :: rest => rest.all (fun m => !(pathConflict n m)) && noConflicts rest

/-- The validity check `txtar.FS` performs when building a filesystem from an
archive (documented behaviour of `golang.org/x/tools/txtar.FS`): every file
name must be a valid `fs.ValidPath` path, must not be the root ".", and no two
entries may collide as file/file or file/directory. -/
def txtarValid (files : List TxtarFile) : Bool :=
  files.all (fun f => validPath f.name && f.name != ".") &&
    noConflicts (files.map (fun f => f.name))

/-- `txtar.FS` as consumed by the handlers: an error for an invalid archive,
otherwise the name-to-content table of the produced read-only filesystem. -/
def txtarFS (a : Archive) : Except String (List (String × String)) :=
  if txtarValid a.files then
    .ok (a.files.map (fun f => (f.name, f.data)))
  else
    .error "invalid txtar archive"

/-- `zip.NewWriter` + `AddFS` + `Flush`/`Close` over a `txtar.FS` filesystem
(source lines 103-115): the produced container's entry list reproduces the
filesystem's regular files, names and contents byte for byte; an empty
filesystem yields a valid empty container.  `AddFS` cannot fail on a
filesystem of plain regular files. -/
def zipEntries (files : List (String × String)) : List (String × String) :=
  files

/-- The download pipeline after assembly: `txtar.FS` then the zip writer.
Result is the entry list of the produced container. -/
def exportArchive (a : Archive) : Except String (List (String × String)) :=
  match txtarFS a with
  | .error e => .error e
  | .ok files => .ok (zipEntries files)

/-- The outcome of `go/parser.ParseFile(..., parser.ImportsOnly)` on one
source text: a parse error message, or the list of (unquoted) import paths.
The parser is an external collaborator, so the pipeline is parameterised by
this function. -/
def GoParser : Type := String → Except String (List String)

/-- `permittedPackages` (source lines 215-218): split the embedded allow-list
text on newlines.  The embedded asset's content is a startup-time constant the
functions are parameterised over. -/
def permittedPackages (permittedPackagesString : String) : List String :=
  (splitOnChar '\n' permittedPackagesString.data).map (fun l => ⟨l⟩)

/-- The message `checkImports` builds for a disallowed import path `p`
(source line 206); Go renders the path with `%q`, shown here for paths
without escape-worthy characters. -/
def importMsg (p : String) : String :=
  "importing \"" ++ p ++ "\" is not permitted on this site"

/-- The loop of `checkImports` (source lines 201-207): walk the parsed import
paths in order; membership in the allow-list is `slices.Index(...) >= 0`,
an exact string match; fail on the first path not in the list. -/
def checkImportsLoop (permitted : List String) : List String → Except String Unit
  | [] => .ok ()
  | p :: rest =>
    if permitted.contains p then checkImportsLoop permitted rest
    else .error (importMsg p)

/-- `checkImports` (source lines 194-210): parse the file in imports-only
mode, then screen each import path against `permittedPackages()` of the
embedded allow-list text. -/
def checkImports (parse : GoParser) (allowString : String) (mainGo : String) :
    Except String Unit :=
  match parse mainGo with
  | .error e => .error ("failed to parse main.go: " ++ e)
  | .ok imports => checkImportsLoop (permittedPackages allowString) imports

/-- The wrapping `buildWASM` applies to a screening failure in file `name`
(source line 59). -/
def fileFailMsg (name msg : String) : String :=
  "failed in " ++ name ++ ": " ++ msg

/-- The screening loop of `buildWASM` (source lines 54-61): every file whose
`path.Ext` is ".go" is screened, in archive order; the first failure rejects
the whole submission, wrapped with the offending file's name. -/
def screenArchive (parse : GoParser) (allowString : String) :
    List TxtarFile → Except String Unit
  | [] => .ok ()
  | f :: rest =>
    if pathExt f.name == ".go" then
      match checkImports parse allowString f.data with
      | .error e => .error (fileFailMsg f.name e)
      | .ok () => screenArchive parse allowString rest
    else
      screenArchive parse allowString rest

/-- The standard base64 alphabet used by `base64.StdEncoding`. -/
def base64Alphabet : List Char :=
  "ABCDEFGHIJKLMNOPQRSTUVWXYZabcdefghijklmnopqrstuvwxyz0123456789+/".data

/-- Digit `n` (0 ≤ n < 64) of the standard base64 alphabet. -/
def b64c (n : Nat) : Char :=
  base64Alphabet.getD n '='

/-- Value of a base64 alphabet character (64 for a character outside it). -/
def b64v (c : Char) : Nat :=
  match base64Alphabet.indexOf? c with
  | some i => i
  | none => 64

/-- Is `c` a character of the base64 alphabet? -/
def b64valid (c : Char) : Bool :=
  base64Alphabet.contains c

/-- `base64.StdEncoding.EncodeToString` on a byte list (bytes as `Nat < 256`):
RFC 4648 standard encoding with `=` padding, as the character list of the
produced string. -/
def base64EncodeChars : List Nat → List Char
  | [] => []
  | [b1] => [b64c (b1 / 4), b64c (b1 % 4 * 16), '=', '=']
  | [b1, b2] => [b64c (b1 / 4), b64c (b1 % 4 * 16 + b2 / 16), b64c (b2 % 16 * 4), '=']
  | b1 :: b2 :: b3 :: rest =>
    b64c (b1 / 4) :: b64c (b1 % 4 * 16 + b2 / 16) ::
      b64c (b2 % 16 * 4 + b3 / 64) :: b64c (b3 % 64) :: base64EncodeChars rest

/-- `base64.StdEncoding.EncodeToString` producing a `String`. -/
def base64Encode (bs : List Nat) : String :=
  ⟨base64EncodeChars bs⟩

/-- `base64.StdEncoding.DecodeString` on a character list: `none` on invalid
input, otherwise the decoded byte list. -/
def base64DecodeChars : List Char → Option (List Nat)
  | [] => some []
  | c1 :: c2 :: c3 :: c4 :: rest =>
    if c3 == '=' && c4 == '=' && rest.isEmpty then
      if b64valid c1 && b64valid c2 then
        some [b64v c1 * 4 + b64v c2 / 16]
      else none
    else if c4 == '=' && rest.isEmpty then
      if b64valid c1 && b64valid c2 && b64valid c3 then
        some [b64v c1 * 4 + b64v c2 / 16, b64v c2 % 16 * 16 + b64v c3 / 4]
      else none
    else
      if b64valid c1 && b64valid c2 && b64valid c3 && b64valid c4 then
        match base64DecodeChars rest with
        | some tail =>
          some ((b64v c1 * 4 + b64v c2 / 16) ::
                (b64v c2 % 16 * 16 + b64v c3 / 4) ::
                (b64v c3 % 4 * 64 + b64v c4) :: tail)
        | none => none
      else none
  | _ => none

/-- `base64.StdEncoding.DecodeString` on a `String`. -/
def base64Decode (s : String) : Option (List Nat) :=
  base64DecodeChars s.data

/-- Outcome of the compiler subprocess (`cmd.Run` with a context):
whether the context deadline cancelled it, whether it exited zero, and the
content of the merged stdout+stderr buffer at the time `Run` returned. -/
structure SubprocessOutcome where
  cancelled : Bool
  exitOk : Bool
  output : String
  deriving Repr, DecidableEq

/-- The external effects one `buildWASM` call can observe, as oracles:
`os.MkdirTemp` (error or directory name), `os.CopyFS`, the subprocess,
and `os.ReadFile` on the produced artifact (bytes as `Nat < 256`). -/
structure BuildWorld where
  mkdirTemp : Except String String
  copyFS : Except String Unit
  run : SubprocessOutcome
  readFile : Except String (List Nat)

/-- Result of one `buildWASM` call together with its observable trace:
how many compiler subprocesses were started, whether the temporary working
directory was created, and whether it was removed before return. -/
structure BuildResult where
  result : Except String String
  subprocessCount : Nat
  tmpCreated : Bool
  tmpRemoved : Bool
  deriving Repr

/-- `buildWASM` (source lines 44-92).  Step order as in the source:
`os.MkdirTemp` (its failure returns the generic message before the cleanup
defer is installed); the deferred `os.RemoveAll(tmp)` runs on every later
return; the import screen over the archive's `.go` files; `txtar.FS`
validation; `os.CopyFS`; the compiler subprocess whose non-nil `Run` error
(non-zero exit or context cancellation) yields exactly the merged output
buffer as the error; `os.ReadFile` of `main.wasm`; base64 encoding. -/
def buildWASM (parse : GoParser) (allowString : String) (world : BuildWorld)
    (archive : Archive) : BuildResult :=
  match world.mkdirTemp with
  | .error _ =>
    { result := .error "failed to create temporary directory",
      subprocessCount := 0, tmpCreated := false, tmpRemoved := false }
  | .ok _tmp =>
    match screenArchive parse allowString archive.files with
    | .error e =>
      { result := .error e, subprocessCount := 0, tmpCreated := true, tmpRemoved := true }
    | .ok () =>
      match txtarFS archive with
      | .error e =>
        { result := .error e, subprocessCount := 0, tmpCreated := true, tmpRemoved := true }
      | .ok _dir =>
        match world.copyFS with
        | .error e =>
          { result := .error e, subprocessCount := 0, tmpCreated := true, tmpRemoved := true }
        | .ok () =>
          if world.run.cancelled || !world.run.exitOk then
            { result := .error world.run.output,
              subprocessCount := 1, tmpCreated := true, tmpRemoved := true }
          else
            match world.readFile with
            | .error e =>
              { result := .error ("failed to open build file: " ++ e),
                subprocessCount := 1, tmpCreated := true, tmpRemoved := true }
            | .ok bytes =>
              { result := .ok (base64Encode bytes),
                subprocessCount := 1, tmpCreated := true, tmpRemoved := true }

/-- Is `c` an ASCII decimal digit? -/
def isDigitChar (c : Char) : Bool :=
  '0' ≤ c && c ≤ '9'

/-- Numeric value of a digit string (most significant first). -/
def digitsToNat : List Char → Nat → Nat
  | [], acc => acc
  | c :: rest, acc => digitsToNat rest (acc * 10 + (c.toNat - '0'.toNat))

/-- `strconv.Atoi`: an optional sign followed by one or more decimal digits,
nothing else; out-of-range for `int64` is an error (the handler only looks at
whether an error occurred). -/
def atoi (s : String) : Except String Int :=
  let signed : Option (Bool × List Char) :=
    match s.data with
    | '-' :: rest => some (true, rest)
    | '+' :: rest => some (false, rest)
    | rest => some (false, rest)
  match signed with
  | some (neg, ds) =>
    if ds.isEmpty || !ds.all isDigitChar then
      .error "invalid syntax"
    else
      let n : Int := Int.ofNat (digitsToNat ds 0)
      let v : Int := if neg then -n else n
      if v < -(2 ^ 63) || 2 ^ 63 - 1 < v then .error "value out of range" else .ok v
  | none => .error "invalid syntax"

/-- The parts of a parsed URL the handler reads (`url.URL.Scheme`/`Host`). -/
structure ParsedURL where
  scheme : String
  host : String
  deriving Repr, DecidableEq

/-- One compile request, with oracles for the external collaborators
`url.Parse` (on the `hx-current-url` header) and the run-item template
execution. -/
structure RunRequest where
  form : FormValues
  runIDQuery : String
  currentURLParse : Except String ParsedURL
  hxTarget : String
  templateExec : Except String String
  world : BuildWorld

/-- The response `handleRun` produces, by status and template:
`badRequest`/`internalError` are the plain `http.Error` paths (400/500);
`failureHTML` renders the `build-failure` template with HTTP 200;
`runItemHTML`/`runHTML` render success with HTTP 200. -/
inductive RunResponse where
  | badRequest (msg : String)
  | internalError (msg : String)
  | failureHTML (runID : Int) (buildLogs : String)
  | runItemHTML (runID : Int) (location : String) (binaryBase64 : String)
      (sourceHTMLDocument : String)
  | runHTML (runID : Int) (location : String) (binaryBase64 : String)
  deriving Repr, DecidableEq

/-- Is the response an HTTP-500 `http.Error`? -/
def RunResponse.is500 : RunResponse → Bool
  | .internalError _ => true
  | _ => false

/-- `handleRun`'s request closure (source lines 134-191): assemble the archive
(400 on assembly error), parse the optional `run-id` (default 1, 400 when
malformed), parse the `hx-current-url` header (500 on error), build, and on a
build error of any kind render the `build-failure` template with the error
text as the logs and HTTP 200; on success render by `HX-Target`.
`parseRunID` is the `run-id` form-value handling of source lines 143-151:
default 1 when absent or empty, client error when `strconv.Atoi` fails. -/
def parseRunID (q : String) : Except Unit Int :=
  if q == "" then .ok 1
  else
    match atoi q with
    | .error _ => .error ()
    | .ok n => .ok n

def handleRun (parse : GoParser) (allowString : String) (r : RunRequest) :
    RunResponse :=
  match readArchive r.form with
  | .error e => .badRequest e
  | .ok archive =>
    match parseRunID r.runIDQuery with
    | .error () => .badRequest "invalid run id"
    | .ok runID =>
      match r.currentURLParse with
      | .error _ => .internalError "failed to parse current url"
      | .ok u =>
        let b := buildWASM parse allowString r.world archive
        match b.result with
        | .error msg => .failureHTML runID msg
        | .ok b64 =>
          let location := u.scheme ++ "://" ++ u.host
          if r.hxTarget == "runner" then
            match r.templateExec with
            | .error _ => .internalError "Internal Server Error"
            | .ok doc => .runItemHTML runID location b64 doc
          else
            .runHTML runID location b64

/-- The response `handleDownload` produces: 400 plain error, or HTTP 200 with
the zip container (modelled by its entry list). -/
inductive DownloadResponse where
  | badRequest (msg : String)
  | zipAttachment (entries : List (String × String))
  deriving Repr, DecidableEq

/-- `handleDownload` (source lines 94-119): assemble the archive (400 on
assembly error), build the `txtar.FS` filesystem (400 on error), add it to a
zip container (400 on error), and serve the container as an attachment. -/
def handleDownload (form : FormValues) : DownloadResponse :=
  match readArchive form with
  | .error e => .badRequest e
  | .ok archive =>
    match exportArchive archive with
    | .error e => .badRequest e
    | .ok entries => .zipAttachment entries

/-! ### Concrete fixtures used by witnesses and counterexamples -/

/-- A parser oracle for source text with no import declarations. -/
def parseNoImports : GoParser := fun _ => .ok []

/-- A one-file archive holding an entry-point source file. -/
def archMain : Archive :=
  { files := [{ name := "main.go", data := "package main" }] }

/-- A world where every step succeeds and the compiler produces bytes. -/
def worldOK : BuildWorld :=
  { mkdirTemp := .ok "/tmp/w", copyFS := .ok (),
    run := { cancelled := false, exitOk := true, output := "" },
    readFile := .ok [0, 77, 255] }

/-- A world where the subprocess is cancelled by the deadline with some
partial merged output. -/
def worldCancelled : BuildWorld :=
  { mkdirTemp := .ok "/tmp/w", copyFS := .ok (),
    run := { cancelled := true, exitOk := true, output := "partial output" },
    readFile := .ok [] }

/-- A world where the compiler exits non-zero with the same merged output. -/
def worldCompilerError : BuildWorld :=
  { mkdirTemp := .ok "/tmp/w", copyFS := .ok (),
    run := { cancelled := false, exitOk := false, output := "partial output" },
    readFile := .ok [] }

/-- A world where `os.MkdirTemp` fails before anything else happens. -/
def worldMkdirFails : BuildWorld :=
  { mkdirTemp := .error "no space left on device", copyFS := .ok (),
    run := { cancelled := false, exitOk := true, output := "" },
    readFile := .ok [] }

/-- A compile request whose build world fails at temporary-directory
creation (an infrastructure error). -/
def reqInfraError : RunRequest :=
  { form := [("filename", ["main.go"]), ("main.go", ["package main"])],
    runIDQuery := "", currentURLParse := .ok { scheme := "http", host := "localhost:8080" },
    hxTarget := "", templateExec := .ok "", world := worldMkdirFails }

/-- A compile request with a malformed `run-id` value. -/
def reqBadRunID : RunRequest :=
  { form := [], runIDQuery := "abc",
    currentURLParse := .ok { scheme := "http", host := "localhost:8080" },
    hxTarget := "", templateExec := .ok "", world := worldOK }

/-! ### Claim theorems -/

/-- Claim C2: for every call to `buildWASM` that gets past working-directory
creation, the temporary working directory is removed before the call returns,
on every exit path: success, import-screening rejection, `txtar.FS` or
`os.CopyFS` failure, compiler failure, cancellation, and artifact-read
failure. -/
theorem buildWASM_cleanup_invariant (parse : GoParser) (allowString : String)
    (world : BuildWorld) (archive : Archive)
    (h : (buildWASM parse allowString world archive).tmpCreated = true) :
    (buildWASM parse allowString world archive).tmpRemoved = true := by
  revert h
  unfold buildWASM
  repeat' split
  all_goals simp

/-- Witness for C2 at a concrete request: the directory is created and
removed. -/
theorem buildWASM_cleanup_invariant_witness :
    (buildWASM parseNoImports "fmt" worldOK archMain).tmpCreated = true ∧
    (buildWASM parseNoImports "fmt" worldOK archMain).tmpRemoved = true :=
  ⟨rfl, buildWASM_cleanup_invariant parseNoImports "fmt" worldOK archMain rfl⟩

/-- Claim C5: when the external compiler exits non-zero, the failure's
diagnostic text is exactly the merged stdout+stderr buffer content, with no
wrapping or summarizing. -/
theorem compilerFailure_diagnostics_verbatim (parse : GoParser)
    (allowString : String) (world : BuildWorld) (archive : Archive)
    (tmp : String)
    (hm : world.mkdirTemp = .ok tmp)
    (hs : screenArchive parse allowString archive.files = .ok ())
    (ht : txtarValid archive.files = true)
    (hc : world.copyFS = .ok ())
    (he : world.run.exitOk = false) :
    (buildWASM parse allowString world archive).result = .error world.run.output := by
  unfold buildWASM
  simp [hm, hs, ht, hc, he, txtarFS]

/-- Witness for C5 at a concrete failing compile. -/
theorem compilerFailure_diagnostics_verbatim_witness :
    (buildWASM parseNoImports "fmt" worldCompilerError archMain).result =
      .error "partial output" :=
  compilerFailure_diagnostics_verbatim parseNoImports "fmt" worldCompilerError
    archMain "/tmp/w" rfl rfl rfl rfl rfl

/-- Claim C4 counterexample: a deadline-cancelled build and a non-zero-exit
build with the same merged output buffer produce *identical* `buildWASM`
outcomes: the cancellation failure is not distinguishable from a compiler
failure — the two kinds are conflated, refuting the claim as stated. -/
theorem cancellation_conflated_counterexample :
    buildWASM parseNoImports "fmt" worldCancelled archMain =
      buildWASM parseNoImports "fmt" worldCompilerError archMain ∧
    (buildWASM parseNoImports "fmt" worldCancelled archMain).result =
      .error "partial output" :=
  ⟨rfl, rfl⟩

/-- Claim C4 (amended): when the subprocess is cancelled by the deadline, the
attempt fails and the failure's text is the merged output buffer content —
the same shape a compiler failure produces (the code runs
`errors.New(outputBuffer.String())` on any non-nil `cmd.Run` error). -/
theorem cancellation_yields_buffer_error (parse : GoParser)
    (allowString : String) (world : BuildWorld) (archive : Archive)
    (tmp : String)
    (hm : world.mkdirTemp = .ok tmp)
    (hs : screenArchive parse allowString archive.files = .ok ())
    (ht : txtarValid archive.files = true)
    (hc : world.copyFS = .ok ())
    (he : world.run.cancelled = true) :
    (buildWASM parse allowString world archive).result = .error world.run.output := by
  unfold buildWASM
  simp [hm, hs, ht, hc, he, txtarFS]

/-- Witness for the amended C4 at a concrete cancelled build. -/
theorem cancellation_yields_buffer_error_witness :
    (buildWASM parseNoImports "fmt" worldCancelled archMain).result =
      .error "partial output" :=
  cancellation_yields_buffer_error parseNoImports "fmt" worldCancelled archMain
    "/tmp/w" rfl rfl rfl rfl rfl

/-- Claim C3 counterexample: on a request whose temporary-directory creation
fails (an infrastructure error), `handleRun` renders the `build-failure`
template with HTTP 200 — a `RunFailure` — and not an HTTP 500, refuting the
claim as stated. -/
theorem infraError_rendered_http200_counterexample :
    handleRun parseNoImports "fmt" reqInfraError =
      .failureHTML 1 "failed to create temporary directory" ∧
    (handleRun parseNoImports "fmt" reqInfraError).is500 = false :=
  ⟨rfl, rfl⟩

/-- Claim C3 (amended): every `buildWASM` error — infrastructure errors
(temporary-directory creation, archive materialization, artifact read)
included — is surfaced as a `RunFailure` rendered with HTTP 200 whose
diagnostic text is the error's message; the temp-directory case carries the
generic message "failed to create temporary directory" with detail only
logged.  HTTP 500 is reserved for the origin-header parse and template
execution paths. -/
theorem infraError_rendered_as_runFailure (parse : GoParser)
    (allowString : String) (r : RunRequest) (runID : Int) (u : ParsedURL)
    (msg : String)
    (hid : parseRunID r.runIDQuery = .ok runID)
    (hu : r.currentURLParse = .ok u)
    (hb : (buildWASM parse allowString r.world (archiveOfForm r.form)).result =
      .error msg) :
    handleRun parse allowString r = .failureHTML runID msg ∧
    (handleRun parse allowString r).is500 = false := by
  unfold handleRun
  simp only [readArchive, hid, hu, hb]
  exact ⟨trivial, rfl⟩

/-- Witness for the amended C3 at the concrete infrastructure-failure
request. -/
theorem infraError_rendered_as_runFailure_witness :
    handleRun parseNoImports "fmt" reqInfraError =
      .failureHTML 1 "failed to create temporary directory" ∧
    (handleRun parseNoImports "fmt" reqInfraError).is500 = false :=
  infraError_rendered_as_runFailure parseNoImports "fmt" reqInfraError 1
    { scheme := "http", host := "localhost:8080" }
    "failed to create temporary directory" rfl rfl rfl

/-- Claim C10: `readArchive` returns a non-nil archive and a nil error on
every possible form value map; consequently the assembly-error 400 branches
are unreachable through it — the only `badRequest` `handleRun` can produce is
the malformed-run-id one, and the only `badRequest` `handleDownload` can
produce comes from the export step. -/
theorem readArchive_never_fails (form : FormValues) (parse : GoParser)
    (allowString : String) (r : RunRequest) :
    (∃ a, readArchive form = .ok a) ∧
    (∀ msg, handleRun parse allowString r = .badRequest msg →
      msg = "invalid run id") ∧
    (∀ msg, handleDownload form = .badRequest msg →
      ∃ a, readArchive form = .ok a ∧ exportArchive a = .error msg) := by
  refine ⟨⟨_, rfl⟩, ?_, ?_⟩
  · intro msg h
    unfold handleRun at h
    simp only [readArchive] at h
    split at h
    · cases h; rfl
    · split at h
      · cases h
      · split at h
        · cases h
        · split at h
          · split at h
            · cases h
            · cases h
          · cases h
  · intro msg h
    unfold handleDownload at h
    simp only [readArchive] at h
    refine ⟨_, rfl, ?_⟩
    split at h
    · cases h; assumption
    · cases h

/-- Witness for C10 at a concrete form and a concrete malformed-run-id
request. -/
theorem readArchive_never_fails_witness :
    (∃ a, readArchive [("filename", ["a.go"])] = .ok a) ∧
    "invalid run id" = "invalid run id" :=
  ⟨(readArchive_never_fails [("filename", ["a.go"])] parseNoImports "fmt"
      reqBadRunID).1,
    (readArchive_never_fails [("filename", ["a.go"])] parseNoImports "fmt"
      reqBadRunID).2.1 "invalid run id" rfl⟩

/-- The screening loop accepts a list of import paths exactly when every one
of them is a member — by string equality — of the allow-list. -/
theorem checkImportsLoop_ok_iff (permitted : List String)
    (imports : List String) :
    checkImportsLoop permitted imports = .ok () ↔ ∀ p ∈ imports, p ∈ permitted := by
  induction imports with
  | nil => simp [checkImportsLoop]
  | cons p rest ih =>
    by_cases hp : permitted.contains p
    · rw [List.elem_iff] at hp
      simp [checkImportsLoop, List.elem_iff, hp, ih]
    · rw [List.elem_iff] at hp
      simp [checkImportsLoop, List.elem_iff, hp]

/-- When every screened file parses with only allow-listed imports, the
archive-level screen passes. -/
theorem screenArchive_ok_of_allowed (parse : GoParser) (allowString : String)
    (files : List TxtarFile)
    (h : ∀ f ∈ files, pathExt f.name = ".go" →
      ∃ imports, parse f.data = .ok imports ∧
        ∀ p ∈ imports, p ∈ permittedPackages allowString) :
    screenArchive parse allowString files = .ok () := by
  induction files with
  | nil => rfl
  | cons f rest ih =>
    unfold screenArchive
    by_cases hf : pathExt f.name == ".go"
    · simp only [hf, if_pos]
      obtain ⟨imports, hp, hall⟩ := h f (List.mem_cons_self f rest) (by simpa using hf)
      unfold checkImports
      simp only [hp,
        (checkImportsLoop_ok_iff (permittedPackages allowString) imports).mpr hall]
      exact ih (fun g hg => h g (List.mem_cons_of_mem f hg))
    · simp only [hf, if_neg, Bool.false_eq_true, not_false_eq_true]
      exact ih (fun g hg => h g (List.mem_cons_of_mem f hg))

/-- Claim C6: import screening decides membership by exact string equality of
each import path against the allow-list — the loop accepts exactly when every
path is a list member under string equality, no prefix or pattern matching —
and consequently a submission all of whose import paths are exactly in the
allow-list is never rejected by the guard. -/
theorem importGuard_exact_match (parse : GoParser) (allowString : String)
    (files : List TxtarFile) :
    (∀ imports, checkImportsLoop (permittedPackages allowString) imports = .ok () ↔
      ∀ p ∈ imports, p ∈ permittedPackages allowString) ∧
    ((∀ f ∈ files, pathExt f.name = ".go" →
        ∃ imports, parse f.data = .ok imports ∧
          ∀ p ∈ imports, p ∈ permittedPackages allowString) →
      screenArchive parse allowString files = .ok ()) :=
  ⟨fun imports => checkImportsLoop_ok_iff _ imports,
   fun h => screenArchive_ok_of_allowed parse allowString files h⟩

/-- A parser oracle for a file importing exactly `fmt`. -/
def parseFmtOnly : GoParser := fun _ => .ok ["fmt"]

/-- Witness for C6: a concrete submission importing only `fmt` against the
allow-list `fmt`, `syscall/js` passes the guard. -/
theorem importGuard_exact_match_witness :
    (checkImportsLoop (permittedPackages "fmt\nsyscall/js") ["fmt"] = .ok () ↔
      ∀ p ∈ ["fmt"], p ∈ permittedPackages "fmt\nsyscall/js") ∧
    screenArchive parseFmtOnly "fmt\nsyscall/js"
      [{ name := "main.go", data := "package main" }] = .ok () :=
  ⟨(importGuard_exact_match parseFmtOnly "fmt\nsyscall/js"
      [{ name := "main.go", data := "package main" }]).1 ["fmt"],
   (importGuard_exact_match parseFmtOnly "fmt\nsyscall/js"
      [{ name := "main.go", data := "package main" }]).2
     (fun f _ _ => ⟨["fmt"], rfl, by decide⟩)⟩

/-- A form whose `filename` list names `a.go` twice. -/
def dupForm : FormValues := [("filename", ["a.go", "a.go"]), ("a.go", ["x"])]

/-- Claim C7 counterexample: a form submitting the name `a.go` twice in the
`filename` list yields an archive with two entries named `a.go`, not a single
entry per distinct submitted name, refuting the claim as stated. -/
theorem duplicate_filename_duplicate_entries_counterexample :
    readArchive dupForm =
      .ok { files := [{ name := "a.go", data := "x" },
                      { name := "a.go", data := "x" }] } ∧
    ¬ ((archiveOfForm dupForm).files.filter
        (fun f => f.name == "a.go")).length = 1 :=
  ⟨rfl, by decide⟩

/-- Claim C7 (amended): the assembler produces one `File` entry per
*occurrence* in the submitted `filename` value list, in order (a name listed
more than once yields that many duplicate entries), and each entry's content
is the first form value of the field named by that filename (possibly
empty). -/
theorem readArchive_entry_per_occurrence (form : FormValues) :
    readArchive form = .ok (archiveOfForm form) ∧
    (archiveOfForm form).files.map (fun f => f.name) = formIndex form "filename" ∧
    ∀ f ∈ (archiveOfForm form).files, f.data = formGet form f.name := by
  refine ⟨rfl, ?_, ?_⟩
  · simp only [archiveOfForm]
    induction formIndex form "filename" with
    | nil => rfl
    | cons x xs ih => simp [ih]
  · intro f hf
    simp only [archiveOfForm, List.mem_map] at hf
    obtain ⟨n, _, rfl⟩ := hf
    rfl

/-- Witness for the amended C7 at the duplicate-name form. -/
theorem readArchive_entry_per_occurrence_witness :
    (archiveOfForm dupForm).files.map (fun f => f.name) =
      formIndex dupForm "filename" ∧
    "x" = formGet dupForm "a.go" :=
  ⟨(readArchive_entry_per_occurrence dupForm).2.1,
   (readArchive_entry_per_occurrence dupForm).2.2
      { name := "a.go", data := "x" } (by decide)⟩

/-- A form submitting the empty string as a filename. -/
def emptyNameForm : FormValues := [("filename", [""])]

/-- Claim C8 counterexample: the assembler can produce an archive with an
empty file name, on which `txtar.FS` fails and the download handler returns
HTTP 400 — the exporter does not succeed on every assembler-producible
archive, refuting the claim as stated. -/
theorem exporter_fails_on_assembler_archive_counterexample :
    readArchive emptyNameForm = .ok { files := [{ name := "", data := "" }] } ∧
    (exportArchive { files := [{ name := "", data := "" }] }).isOk = false ∧
    handleDownload emptyNameForm = .badRequest "invalid txtar archive" :=
  ⟨rfl, rfl, rfl⟩

/-- Claim C8 (amended): for every archive whose file names pass `txtar.FS`
validation (valid slash-separated relative paths, no duplicate or
file/directory conflicts) — the empty archive included — the exporter
succeeds and the produced container's entries reproduce every file name and
content byte for byte. -/
theorem exporter_roundtrip_on_valid_names (a : Archive)
    (h : txtarValid a.files = true) :
    exportArchive a = .ok (a.files.map (fun f => (f.name, f.data))) ∧
    ∀ f ∈ a.files, (f.name, f.data) ∈ a.files.map (fun g => (g.name, g.data)) := by
  constructor
  · unfold exportArchive txtarFS zipEntries
    simp [h]
  · intro f hf
    exact List.mem_map_of_mem _ hf

/-- Witness for the amended C8: the empty archive exports to a valid empty
container. -/
theorem exporter_roundtrip_on_valid_names_witness :
    exportArchive { files := [] } = .ok [] :=
  (exporter_roundtrip_on_valid_names { files := [] } rfl).1

/-- Decoding inverts encoding on each base64 digit. -/
theorem b64v_b64c : ∀ x < 64, b64v (b64c x) = x := by decide

/-- Every base64 digit is in the alphabet. -/
theorem b64valid_b64c : ∀ x < 64, b64valid (b64c x) = true := by decide

/-- No base64 digit is the padding character. -/
theorem b64c_ne_pad : ∀ x < 64, (b64c x == '=') = false := by decide

/-- Round trip of the character-level base64 encoding, by strong induction on
the byte-list length (the encoder consumes three bytes per step). -/
theorem base64DecodeChars_encodeChars :
    ∀ n (bs : List Nat), bs.length ≤ n → (∀ b ∈ bs, b < 256) →
      base64DecodeChars (base64EncodeChars bs) = some bs := by
  intro n
  induction n with
  | zero =>
    intro bs hlen _
    have : bs = [] := List.length_eq_zero.mp (Nat.le_zero.mp hlen)
    subst this
    rfl
  | succ n ih =>
    intro bs hlen hb
    match bs with
    | [] => rfl
    | [b1] =>
      have h1 : b1 < 256 := hb b1 (by simp)
      have e1 : b1 / 4 < 64 := by omega
      have e2 : b1 % 4 * 16 < 64 := by omega
      show base64DecodeChars [b64c (b1 / 4), b64c (b1 % 4 * 16), '=', '='] = some [b1]
      unfold base64DecodeChars
      simp [b64valid_b64c _ e1, b64valid_b64c _ e2, b64v_b64c _ e1, b64v_b64c _ e2]
      omega
    | [b1, b2] =>
      have h1 : b1 < 256 := hb b1 (by simp)
      have h2 : b2 < 256 := hb b2 (by simp)
      have e1 : b1 / 4 < 64 := by omega
      have e2 : b1 % 4 * 16 + b2 / 16 < 64 := by omega
      have e3 : b2 % 16 * 4 < 64 := by omega
      show base64DecodeChars
          [b64c (b1 / 4), b64c (b1 % 4 * 16 + b2 / 16), b64c (b2 % 16 * 4), '='] =
        some [b1, b2]
      unfold base64DecodeChars
      simp [b64c_ne_pad _ e3, b64valid_b64c _ e1, b64valid_b64c _ e2,
        b64valid_b64c _ e3, b64v_b64c _ e1, b64v_b64c _ e2, b64v_b64c _ e3]
      omega
    | b1 :: b2 :: b3 :: rest =>
      have h1 : b1 < 256 := hb b1 (by simp)
      have h2 : b2 < 256 := hb b2 (by simp)
      have h3 : b3 < 256 := hb b3 (by simp)
      have e1 : b1 / 4 < 64 := by omega
      have e2 : b1 % 4 * 16 + b2 / 16 < 64 := by omega
      have e3 : b2 % 16 * 4 + b3 / 64 < 64 := by omega
      have e4 : b3 % 64 < 64 := by omega
      have hrest : base64DecodeChars (base64EncodeChars rest) = some rest := by
        refine ih rest ?_ (fun b hbm => hb b (by simp [hbm]))
        have := hlen
        simp only [List.length_cons] at this
        omega
      show base64DecodeChars
          (b64c (b1 / 4) :: b64c (b1 % 4 * 16 + b2 / 16) ::
            b64c (b2 % 16 * 4 + b3 / 64) :: b64c (b3 % 64) ::
            base64EncodeChars rest) =
        some (b1 :: b2 :: b3 :: rest)
      unfold base64DecodeChars
      simp [b64c_ne_pad _ e3, b64c_ne_pad _ e4, b64valid_b64c _ e1,
        b64valid_b64c _ e2, b64valid_b64c _ e3, b64valid_b64c _ e4,
        b64v_b64c _ e1, b64v_b64c _ e2, b64v_b64c _ e3, b64v_b64c _ e4, hrest]
      omega

/-- Claim C9: for every binary byte sequence, the artifact encoding used by
`buildWASM` is deterministic and reversible: decoding the encoded string
reproduces the original bytes exactly, and two byte sequences with the same
encoding are equal (no information loss). -/
theorem base64_roundtrip (bs : List Nat) (h : ∀ b ∈ bs, b < 256) :
    base64Decode (base64Encode bs) = some bs ∧
    (∀ bs2, (∀ b ∈ bs2, b < 256) → base64Encode bs = base64Encode bs2 →
      bs = bs2) := by
  have hself : base64Decode (base64Encode bs) = some bs :=
    base64DecodeChars_encodeChars bs.length bs le_rfl h
  refine ⟨hself, fun bs2 h2 henc => ?_⟩
  have hother : base64Decode (base64Encode bs2) = some bs2 :=
    base64DecodeChars_encodeChars bs2.length bs2 le_rfl h2
  rw [henc, hother] at hself
  exact (Option.some.injEq _ _).mp hself.symm

/-- Witness for C9 at inputs of size 0, 1, and 4. -/
theorem base64_roundtrip_witness :
    base64Decode (base64Encode []) = some [] ∧
    base64Decode (base64Encode [0]) = some [0] ∧
    base64Decode (base64Encode [0, 255, 77, 1]) = some [0, 255, 77, 1] :=
  ⟨(base64_roundtrip [] (by decide)).1,
   (base64_roundtrip [0] (by decide)).1,
   (base64_roundtrip [0, 255, 77, 1] (by decide)).1⟩

/-- Does some `.go` file of the list parse successfully with an import path
outside the allow-list?  (The hypothesis of claim C1.) -/
def hasDisallowedImport (parse : GoParser) (allowString : String)
    (files : List TxtarFile) : Bool :=
  files.any (fun f => pathExt f.name == ".go" &&
    (match parse f.data with
     | .ok imports =>
       imports.any (fun p => !(permittedPackages allowString).contains p)
     | .error _ => false))

/-- Does every `.go` file of the list parse successfully? -/
def allGoFilesParse (parse : GoParser) (files : List TxtarFile) : Bool :=
  files.all (fun f => pathExt f.name != ".go" || (parse f.data).isOk)

/-- An import list containing a disallowed path makes the screening loop fail
with the message naming some disallowed member of the list. -/
theorem checkImportsLoop_error_of_bad (permitted : List String)
    (imports : List String)
    (h : imports.any (fun p => !permitted.contains p) = true) :
    ∃ p ∈ imports, permitted.contains p = false ∧
      checkImportsLoop permitted imports = .error (importMsg p) := by
  induction imports with
  | nil => simp at h
  | cons p rest ih =>
    by_cases hp : permitted.contains p = true
    · have hpm : p ∈ permitted := List.elem_iff.mp hp
      have hr : rest.any (fun q => !permitted.contains q) = true := by
        simpa [hpm] using h
      obtain ⟨q, hq, hbad, herr⟩ := ih hr
      refine ⟨q, List.mem_cons_of_mem p hq, hbad, ?_⟩
      show checkImportsLoop permitted (p :: rest) = .error (importMsg q)
      unfold checkImportsLoop
      rw [if_pos hp, herr]
    · refine ⟨p, List.mem_cons_self p rest, by simpa using hp, ?_⟩
      show checkImportsLoop permitted (p :: rest) = .error (importMsg p)
      unfold checkImportsLoop
      rw [if_neg hp]

/-- A disallowed import anywhere in the archive makes the archive screen
fail. -/
theorem screenArchive_error_of_disallowed (parse : GoParser)
    (allowString : String) (files : List TxtarFile)
    (h : hasDisallowedImport parse allowString files = true) :
    ∃ e, screenArchive parse allowString files = .error e := by
  induction files with
  | nil => simp [hasDisallowedImport] at h
  | cons f rest ih =>
    unfold screenArchive
    by_cases hf : pathExt f.name == ".go"
    · simp only [hf, if_pos]
      rcases hc : checkImports parse allowString f.data with e | u
      · exact ⟨_, rfl⟩
      · cases u
        apply ih
        unfold hasDisallowedImport at h ⊢
        simp only [List.any_cons, Bool.or_eq_true] at h
        rcases h with hself | hrest
        · exfalso
          rw [Bool.and_eq_true] at hself
          rcases hp : parse f.data with e | imports
          · rw [hp] at hself
            simp at hself
          · rw [hp] at hself
            obtain ⟨q, _, hbad, herr⟩ :=
              checkImportsLoop_error_of_bad (permittedPackages allowString)
                imports (by simpa using hself.2)
            simp only [checkImports, hp, herr] at hc
            simp at hc
        · exact hrest
    · simp only [hf]
      simp only [Bool.false_eq_true, if_false]
      apply ih
      unfold hasDisallowedImport at h ⊢
      simp only [List.any_cons, Bool.or_eq_true] at h
      rcases h with hself | hrest
      · rw [Bool.and_eq_true] at hself
        rw [hself.1] at hf
        simp at hf
      · exact hrest

/-- When every `.go` file parses, a disallowed import makes the archive
screen fail with the message built from the first offending file's name and
its first disallowed import path, and that path occurs in some parsed `.go`
file of the archive. -/
theorem screenArchive_import_violation (parse : GoParser)
    (allowString : String) (files : List TxtarFile)
    (hall : allGoFilesParse parse files = true)
    (h : hasDisallowedImport parse allowString files = true) :
    ∃ name p, (permittedPackages allowString).contains p = false ∧
      (∃ f ∈ files, f.name = name ∧ pathExt f.name = ".go" ∧
        ∃ imports, parse f.data = .ok imports ∧ p ∈ imports) ∧
      screenArchive parse allowString files =
        .error (fileFailMsg name (importMsg p)) := by
  induction files with
  | nil => simp [hasDisallowedImport] at h
  | cons f rest ih =>
    have hallf : (pathExt f.name != ".go" || (parse f.data).isOk) = true := by
      have h1 := hall
      unfold allGoFilesParse at h1
      simp only [List.all_cons, Bool.and_eq_true] at h1
      exact h1.1
    have hallrest : allGoFilesParse parse rest = true := by
      have h1 := hall
      unfold allGoFilesParse at h1 ⊢
      simp only [List.all_cons, Bool.and_eq_true] at h1
      exact h1.2
    unfold screenArchive
    by_cases hf : pathExt f.name == ".go"
    · rcases hp : parse f.data with e | imports
      · exfalso
        have h1 : (parse f.data).isOk = true := by
          have h2 : (!(pathExt f.name == ".go") || (parse f.data).isOk) = true :=
            hallf
          rw [hf] at h2
          simpa using h2
        rw [hp] at h1
        exact Bool.noConfusion (show false = true from h1)
      · by_cases hbadf :
          imports.any (fun p => !(permittedPackages allowString).contains p) = true
        · obtain ⟨p, hpmem, hbad, herr⟩ :=
            checkImportsLoop_error_of_bad (permittedPackages allowString)
              imports hbadf
          refine ⟨f.name, p, hbad,
            ⟨f, List.mem_cons_self f rest, rfl, by simpa using hf, imports, hp,
              hpmem⟩, ?_⟩
          simp only [hf, if_pos]
          simp only [checkImports, hp, herr]
        · have hok : checkImportsLoop (permittedPackages allowString) imports =
              .ok () := by
            refine (checkImportsLoop_ok_iff _ _).mpr ?_
            intro q hq
            rw [← List.elem_iff]
            by_contra hq2
            rw [Bool.not_eq_true] at hq2
            apply hbadf
            refine List.any_eq_true.mpr ⟨q, hq, ?_⟩
            show (!(permittedPackages allowString).contains q) = true
            have h3 : (permittedPackages allowString).contains q = false := hq2
            rw [h3]
            rfl
          have hrest : hasDisallowedImport parse allowString rest = true := by
            unfold hasDisallowedImport at h ⊢
            simp only [List.any_cons, Bool.or_eq_true] at h
            rcases h with hself | hr
            · exfalso
              rw [Bool.and_eq_true, hp] at hself
              exact hbadf hself.2
            · exact hr
          obtain ⟨name, p, hbad, ⟨g, hg, hgn, hge, himp⟩, herr⟩ :=
            ih hallrest hrest
          refine ⟨name, p, hbad,
            ⟨g, List.mem_cons_of_mem f hg, hgn, hge, himp⟩, ?_⟩
          simp only [hf, if_pos]
          simp only [checkImports, hp, hok, herr]
    · have hrest : hasDisallowedImport parse allowString rest = true := by
        unfold hasDisallowedImport at h ⊢
        simp only [List.any_cons, Bool.or_eq_true] at h
        rcases h with hself | hr
        · exfalso
          rw [Bool.and_eq_true] at hself
          rw [hself.1] at hf
          simp at hf
        · exact hr
      obtain ⟨name, p, hbad, ⟨g, hg, hgn, hge, himp⟩, herr⟩ := ih hallrest hrest
      refine ⟨name, p, hbad, ⟨g, List.mem_cons_of_mem f hg, hgn, hge, himp⟩, ?_⟩
      simp only [hf]
      simp only [Bool.false_eq_true, if_false]
      exact herr

/-- Claim C1: when the submitted archive contains a `.go` file with an import
path absent from the allow-list, the build is rejected (the result is an
error) and the external compiler subprocess is never started (zero
subprocess invocations); moreover, whenever directory creation succeeded and
every `.go` file parses, the failure message is built from an offending
file's name and its disallowed import path, which occurs verbatim inside the
message. -/
theorem importGuard_rejects_before_subprocess (parse : GoParser)
    (allowString : String) (world : BuildWorld) (archive : Archive)
    (h : hasDisallowedImport parse allowString archive.files = true) :
    (∃ e, (buildWASM parse allowString world archive).result = .error e) ∧
    (buildWASM parse allowString world archive).subprocessCount = 0 ∧
    (∀ tmp, world.mkdirTemp = .ok tmp →
      allGoFilesParse parse archive.files = true →
      ∃ name p, (permittedPackages allowString).contains p = false ∧
        (∃ f ∈ archive.files, f.name = name ∧ pathExt f.name = ".go" ∧
          ∃ imports, parse f.data = .ok imports ∧ p ∈ imports) ∧
        (buildWASM parse allowString world archive).result =
          .error (fileFailMsg name (importMsg p)) ∧
        ∃ pre post,
          (fileFailMsg name (importMsg p)).data = pre ++ p.data ++ post) := by
  obtain ⟨e0, hs⟩ :=
    screenArchive_error_of_disallowed parse allowString archive.files h
  have hdata : ∀ a b : String, (a ++ b).data = a.data ++ b.data := fun a b => rfl
  refine ⟨?_, ?_, ?_⟩
  · unfold buildWASM
    rcases hm : world.mkdirTemp with e | tmp
    · exact ⟨_, rfl⟩
    · simp only [hs]
      exact ⟨_, rfl⟩
  · unfold buildWASM
    rcases hm : world.mkdirTemp with e | tmp
    · rfl
    · simp only [hs]
  · intro tmp hm hall
    obtain ⟨name, p, hbad, hfile, herr⟩ :=
      screenArchive_import_violation parse allowString archive.files hall h
    refine ⟨name, p, hbad, hfile, ?_, ?_⟩
    · unfold buildWASM
      rw [hm]
      simp only [herr]
    · refine ⟨("failed in " ++ name ++ ": " ++ "importing \"").data,
        ("\" is not permitted on this site" : String).data, ?_⟩
      simp only [fileFailMsg, importMsg, hdata, List.append_assoc]

/-- A parser oracle for a file importing exactly `net`. -/
def parseNetOnly : GoParser := fun _ => .ok ["net"]

/-- Witness for C1: a file importing `net` against the allow-list holding
only `fmt` is rejected with zero subprocess invocations, naming `net`. -/
theorem importGuard_rejects_before_subprocess_witness :
    (∃ e, (buildWASM parseNetOnly "fmt" worldOK archMain).result = .error e) ∧
    (buildWASM parseNetOnly "fmt" worldOK archMain).subprocessCount = 0 ∧
    (∃ name p, (permittedPackages "fmt").contains p = false ∧
      (∃ f ∈ archMain.files, f.name = name ∧ pathExt f.name = ".go" ∧
        ∃ imports, parseNetOnly f.data = .ok imports ∧ p ∈ imports) ∧
      (buildWASM parseNetOnly "fmt" worldOK archMain).result =
        .error (fileFailMsg name (importMsg p)) ∧
      ∃ pre post,
        (fileFailMsg name (importMsg p)).data = pre ++ p.data ++ post) :=
  ⟨(importGuard_rejects_before_subprocess parseNetOnly "fmt" worldOK archMain
      rfl).1,
   (importGuard_rejects_before_subprocess parseNetOnly "fmt" worldOK archMain
      rfl).2.1,
   (importGuard_rejects_before_subprocess parseNetOnly "fmt" worldOK archMain
      rfl).2.2 "/tmp/w" rfl rfl⟩

end Playground
